import Mathlib

/-!
Verification development for the job-orchestration and sample-discovery core
of the ngs_webinterface repository.

The Python source is shallowly embedded:
* pure helpers from `app/core/utils.py` and `app/analysis/utils.py` become
  Lean functions on `String` / `List Char`;
* the SQLAlchemy job store becomes an explicit `List Job` state threaded
  through the service operations of `app/analysis/services.py`;
* the wall clock (`datetime.now(timezone.utc)` and the naive local
  `datetime.now()`) becomes an explicit `Clock` argument;
* SSH gateway results become explicit oracle arguments
  (`Option String`: `none` = exit code 0, `some e` = failure text `e`).

Python strings are modelled as Lean `String`s; `len` is the number of
characters, matching Python's `len` on `str`.
-/

namespace NgsWeb

/-! ## String primitives

All string manipulation is done through structural `List Char` functions
(rather than the runtime-optimized `String` bindings), so that every
definition evaluates by kernel reduction. -/

/-- Does `pre` start `cs`? -/
def startsWithList : List Char → List Char → Bool
  | [], _ => true
  | _ :: _, [] => false
  | p :: ps, c :: cs => p == c && startsWithList ps cs

/-- `s.startswith(p)`. -/
def sStartsWith (s p : String) : Bool := startsWithList p.data s.data

/-- `s.endswith(p)`. -/
def sEndsWith (s p : String) : Bool :=
  startsWithList p.data.reverse s.data.reverse

/-- `s[n:]` (by characters, for `0 ≤ n`). -/
def sDrop (s : String) (n : Nat) : String := String.mk (s.data.drop n)

/-- `s[:n]` (by characters, for `0 ≤ n`). -/
def sTake (s : String) (n : Nat) : String := String.mk (s.data.take n)

/-- Python's `str.split(sep)` for a one-character separator. -/
def splitOnChar (sep : Char) : List Char → List (List Char)
  | [] => [[]]
  | c :: rest =>
    if c == sep then [] :: splitOnChar sep rest
    else
      match splitOnChar sep rest with
      | [] => [[c]]
      | g :: gs => (c :: g) :: gs

/-- `'sep'.join(parts)` for one-character parts separator. -/
def joinWith (sep : Char) : List (List Char) → List Char
  | [] => []
  | [g] => g
  | g :: gs => g ++ sep :: joinWith sep gs

/-! ## POSIX path model (`os.path` as used by the source) -/

/-- `posixpath.normpath`: collapse `//`, `.` and `..` components.
Translation of the CPython implementation (incl. the leading-`//` rule). -/
def normpath (p : String) : String :=
  if p == "" then "."
  else
    let initialSlashes : Nat :=
      if sStartsWith p "/" then
        (if sStartsWith p "//" && !(sStartsWith p "///") then 2 else 1)
      else 0
    let comps := (splitOnChar '/' p.data).map String.mk
    let newComps := comps.foldl
      (fun acc comp =>
        if comp == "" || comp == "." then acc
        else if comp != ".." || (initialSlashes == 0 && acc.isEmpty)
                || (!acc.isEmpty && acc.getLastD "" == "..") then acc ++ [comp]
        else if !acc.isEmpty then acc.dropLast
        else acc)
      []
    let res := String.mk (List.replicate initialSlashes '/'
      ++ joinWith '/' (newComps.map String.data))
    if res == "" then "." else res

/-- `posixpath.join a b` for the two-argument case used by `abspath`. -/
def joinPath (a b : String) : String :=
  if sStartsWith b "/" then b
  else if a == "" || sEndsWith a "/" then a ++ b
  else a ++ "/" ++ b

/-- `os.path.abspath` on POSIX: join with the working directory, normalize. -/
def abspath (cwd p : String) : String :=
  normpath (joinPath cwd p)

/-- `os.path.basename`: the part after the final `/`. -/
def basename (p : String) : String :=
  String.mk ((splitOnChar '/' p.data).getLastD [])

/-- `os.path.dirname`: the part before the final `/`, with trailing slashes
stripped unless the result is all slashes. -/
def dirname (p : String) : String :=
  let r := p.data.reverse
  let r1 := r.dropWhile (fun c => !(c == '/'))
  if r1.isEmpty then ""
  else
    let head := r1.reverse
    if head.all (fun c => c == '/') then String.mk head
    else String.mk (r1.dropWhile (fun c => c == '/')).reverse

/-! ## `app/core/utils.py` -/

/-- `ANALYSIS_BASE_PATHS` from `app/core/utils.py` (insertion order kept). -/
def ANALYSIS_BASE_PATHS : List (String × String) :=
  [("wgs", "/bacteria"), ("species", "/animalSpecies")]

/-- `MAX_LOG_SIZE` from `app/core/utils.py` (1MB). -/
def MAX_LOG_SIZE : Nat := 1024 * 1024

/-- `MAX_RECURSIVE_DEPTH` from `app/core/utils.py`. -/
def MAX_RECURSIVE_DEPTH : Nat := 5

/-- The two exception kinds `validate_path` can raise
(`werkzeug.exceptions.BadRequest` / `Forbidden`). -/
inductive PathError where
  | badRequest (msg : String)
  | forbidden (msg : String)
deriving DecidableEq, Repr

/-- `str(e)` for the werkzeug exceptions, as caught by
`create_and_start_job`'s generic handler. -/
def pathErrMsg : PathError → String
  | .badRequest m => "400 Bad Request: " ++ m
  | .forbidden m => "403 Forbidden: " ++ m

/-- The base-path fallback loop of `validate_path`: the first configured base
that is a string prefix of `path`, else the first configured base. -/
def detectBase (path : String) : String :=
  match ANALYSIS_BASE_PATHS.find? (fun ab => sStartsWith path ab.2) with
  | some ab => ab.2
  | none => ((ANALYSIS_BASE_PATHS.map Prod.snd).headD "")

/-- `validate_path` from `app/core/utils.py`.  The working directory of the
process is passed explicitly (it feeds `os.path.abspath`). -/
def validate_path (cwd path : String) (analysis_type : Option String) :
    Except PathError String :=
  if path == "" then .error (.badRequest "Pfad ist leer")
  else
    let base_path :=
      match analysis_type with
      | some t =>
        match ANALYSIS_BASE_PATHS.lookup t with
        | some b => b
        | none => detectBase path
      | none => detectBase path
    let resolved_path := abspath cwd path
    let base_resolved := abspath cwd base_path
    if !(sStartsWith resolved_path base_resolved) then
      .error (.forbidden "Zugriff außerhalb des erlaubten Bereichs")
    else .ok resolved_path

/-- Python's `f"{n:02d}"` for a natural number. -/
def pad2 (n : Nat) : String :=
  if n < 10 then "0" ++ toString n else toString n

/-- `truncate_log` from `app/core/utils.py`.  `log_content[-max_size:]` keeps
the trailing `max_size` characters (for `max_size > 0`); Python's `len` on a
`str` is its character count. -/
def truncate_log (log_content : String) (max_size : Nat) : String :=
  if log_content == "" || log_content.length ≤ max_size then log_content
  else
    let truncated :=
      if max_size == 0 then log_content
      else sDrop log_content (log_content.length - max_size)
    truncated ++ "\n[INFO] Log gekürzt..."

/-! ## Calendar / clock model

`datetime` values are modelled as a calendar date plus a minute-of-day.
The service reads two clocks: `datetime.now(timezone.utc)` and the naive
server-local `datetime.now()` (used by `generate_job_code`). -/

structure Date where
  y : Nat
  m : Nat
  d : Nat
deriving DecidableEq, Repr

structure DateTime where
  date : Date
  minute : Nat
deriving DecidableEq, Repr

def isLeap (y : Nat) : Bool :=
  y % 4 == 0 && (y % 100 != 0 || y % 400 == 0)

def daysInMonth (y m : Nat) : Nat :=
  if m == 2 then (if isLeap y then 29 else 28)
  else if m == 4 || m == 6 || m == 9 || m == 11 then 30
  else 31

def nextDay (d : Date) : Date :=
  if d.d < daysInMonth d.y d.m then { d with d := d.d + 1 }
  else if d.m < 12 then { y := d.y, m := d.m + 1, d := 1 }
  else { y := d.y + 1, m := 1, d := 1 }

def prevDay (d : Date) : Date :=
  if d.d > 1 then { d with d := d.d - 1 }
  else if d.m > 1 then { y := d.y, m := d.m - 1, d := daysInMonth d.y (d.m - 1) }
  else { y := d.y - 1, m := 12, d := 31 }

def dateLtB (a b : Date) : Bool :=
  a.y < b.y || (a.y == b.y && (a.m < b.m || (a.m == b.m && a.d < b.d)))

def dtLtB (a b : DateTime) : Bool :=
  dateLtB a.date b.date || (a.date == b.date && a.minute < b.minute)

def dtLeB (a b : DateTime) : Bool :=
  dateLtB a.date b.date || (a.date == b.date && a.minute ≤ b.minute)

/-- Advance a `DateTime` by one minute, rolling over at midnight. -/
def addMinute (t : DateTime) : DateTime :=
  if t.minute + 1 ≤ 1439 then ⟨t.date, t.minute + 1⟩ else ⟨nextDay t.date, 0⟩

/-- Add `k` minutes to a `DateTime` (used only to exhibit realizable
timezone shifts between the two clocks). -/
def addMinutes (t : DateTime) : Nat → DateTime
  | 0 => t
  | k + 1 => addMinutes (addMinute t) k

/-- Step a `DateTime` back by one minute, rolling over at midnight. -/
def subMinute (t : DateTime) : DateTime :=
  if t.minute ≥ 1 then ⟨t.date, t.minute - 1⟩ else ⟨prevDay t.date, 1439⟩

/-- Subtract `k` minutes from a `DateTime` (`now - timedelta(...)`). -/
def subMinutes (t : DateTime) : Nat → DateTime
  | 0 => t
  | k + 1 => subMinutes (subMinute t) k

/-- Midnight of the same day:
`datetime(now.year, now.month, now.day, tzinfo=timezone.utc)`. -/
def startOfDay (t : DateTime) : DateTime := ⟨t.date, 0⟩

/-- `now.strftime('%y%m%d')`. -/
def fmtYYMMDD (d : Date) : String :=
  pad2 (d.y % 100) ++ pad2 d.m ++ pad2 d.d

/-- The two wall clocks visible to the service at one instant:
`utc` is `datetime.now(timezone.utc)`, `localNow` is the naive server-local
`datetime.now()`.  They describe the same instant; when the server's
timezone is ahead of UTC, `localNow = addMinutes utc offset`. -/
structure Clock where
  utc : DateTime
  localNow : DateTime
deriving DecidableEq, Repr

/-- `generate_job_code` from `app/core/utils.py`.  Its `datetime.now()` is
the naive server-local clock, passed in as `now`. -/
def generate_job_code (job_type : String) (job_count_today : Nat)
    (now : DateTime) : String :=
  job_type ++ fmtYYMMDD now.date ++ "_" ++ pad2 job_count_today

/-! ## Filesystem tree and `find_fastq_files_recursive`
(`app/analysis/utils.py`)

A directory listing is a `List FsEntry`; `os.scandir` enumerates it in
order.  `entry.path` is the scanned directory joined with the entry name. -/

inductive FsEntry where
  | file (name : String)
  | dir (name : String) (children : List FsEntry)

/-- The file filter of the scanner: raw-read suffix, not an
`Undetermined_` file. -/
def eligibleFastqName (n : String) : Bool :=
  (sEndsWith n ".fastq.gz" || sEndsWith n ".fastq")
    && !(sStartsWith n "Undetermined_")

/-- `find_fastq_files_recursive` from `app/analysis/utils.py`: the `for`
loop over `os.scandir` is unrolled as list recursion; the `depth` guard at
function entry is re-checked per step (it is constant along one listing). -/
def find_fastq_files_recursive (folder_path : String)
    (entries : List FsEntry) (depth : Nat) : List String :=
  if depth > MAX_RECURSIVE_DEPTH then []
  else
    match entries with
    | [] => []
    | .file n :: rest =>
      (if eligibleFastqName n then [folder_path ++ "/" ++ n] else [])
        ++ find_fastq_files_recursive folder_path rest depth
    | .dir n ch :: rest =>
      (if sStartsWith n "." then []
       else find_fastq_files_recursive (folder_path ++ "/" ++ n) ch (depth + 1))
        ++ find_fastq_files_recursive folder_path rest depth

/-- Replace every directory more than `k` levels below the current listing
by an empty directory (cuts the tree at that depth). -/
def pruneTree (k : Nat) : List FsEntry → List FsEntry
  | [] => []
  | .file n :: rest => .file n :: pruneTree k rest
  | .dir n ch :: rest =>
    (match k with
     | 0 => .dir n []
     | k' + 1 => .dir n (pruneTree k' ch)) :: pruneTree k rest

/-! ## Filename grammar (`pattern_universal` in `app/analysis/utils.py`)

The regex is embedded as a hand-rolled backtracking matcher on `List Char`.
Matching is case-insensitive (`re.IGNORECASE`); captured groups keep the
original characters of the filename.  `search` tries every start position
left to right, and the three alternatives in pattern order at each
position; each alternative is anchored at the end of the string by the
trailing `$` (which in Python also matches just before one final newline). -/

/-- `$` with Python semantics (end of string, or before a final newline). -/
def matchEnd : List Char → Bool
  | [] => true
  | [c] => c == '\n'
  | _ => false

/-- Match a literal (given in lowercase) case-insensitively, returning the
rest of the input. -/
def stripCI : List Char → List Char → Option (List Char)
  | [], cs => some cs
  | p :: ps, c :: cs => if c.toLower == p then stripCI ps cs else none
  | _ :: _, [] => none

/-- Like `stripCI` but also returns the consumed original characters. -/
def stripCICap (pat : List Char) (cs : List Char) :
    Option (List Char × List Char) :=
  match pat, cs with
  | [], cs => some ([], cs)
  | p :: ps, c :: cs =>
    if c.toLower == p then
      (stripCICap ps cs).map (fun r => (c :: r.1, r.2))
    else none
  | _ :: _, [] => none

/-- Exactly `n` digits (`\d{n}`), returning the captured digits. -/
def takeExactDigits : Nat → List Char → Option (List Char × List Char)
  | 0, cs => some ([], cs)
  | _ + 1, [] => none
  | n + 1, c :: cs =>
    if c.isDigit then
      (takeExactDigits n cs).map (fun r => (c :: r.1, r.2))
    else none

/-- `\d+`, maximal munch (safe here: every following pattern character is a
non-digit). -/
def takeDigits1 (cs : List Char) : Option (List Char × List Char) :=
  let r := cs.span (fun c => c.isDigit)
  if r.1.isEmpty then none else some r

/-- A single literal character (case-sensitive: `_`, `-`, digits). -/
def expectChar (ch : Char) : List Char → Option (List Char)
  | c :: cs => if c == ch then some cs else none
  | [] => none

/-- A single letter, case-insensitively (`ch` given in lowercase). -/
def expectCharCI (ch : Char) : List Char → Option (List Char)
  | c :: cs => if c.toLower == ch then some cs else none
  | [] => none

/-- `(?:\.gz)? $`: greedy optional `.gz`, then end anchor. -/
def gzEnd (cs : List Char) : Bool :=
  (match stripCI ".gz".data cs with
   | some r => matchEnd r
   | none => false) || matchEnd cs

/-- `[A-Za-z0-9\-]` (the Illumina id character class). -/
def isIdChar (c : Char) : Bool := c.isAlpha || c.isDigit || c == '-'

/-- A successful match of `pattern_universal`, by alternative. -/
inductive FqMatch where
  | ion (runRaw src date sample : String)
  | illumina (src id : String)
  | special (src : String)
deriving DecidableEq, Repr

/-- The source-code group `[LHVUR]|TA|NTC|PTC` (captures original case). -/
def trySource (cs : List Char) : Option (List Char × List Char) :=
  match cs with
  | c :: rest =>
    if "lhvur".data.contains c.toLower then some ([c], rest)
    else
      match stripCICap "ta".data cs with
      | some r => some r
      | none =>
        match stripCICap "ntc".data cs with
        | some r => some r
        | none => stripCICap "ptc".data cs
  | [] => none

/-- After the lazy gap of the IonTorrent alternative:
`-(?P<ion_source>...)_(?P<ion_date>\d{8})\.IonXpress_(?P<ion_sample>\d{3})\.fastq(?:\.gz)?$`. -/
def ionAfterGap (cs : List Char) : Option (String × String × String) := do
  let r1 ← expectChar '-' cs
  let (src, r2) ← trySource r1
  let r3 ← expectChar '_' r2
  let (date, r4) ← takeExactDigits 8 r3
  let r5 ← stripCI ".ionxpress_".data r4
  let (sample, r6) ← takeExactDigits 3 r5
  let r7 ← stripCI ".fastq".data r6
  if gzEnd r7 then
    some (String.mk src, String.mk date, String.mk sample)
  else none

/-- The lazy gap `.*?` (no newline) before `ionAfterGap`: shortest gap
first, extending one character at a time. -/
def ionGap : List Char → Option (String × String × String)
  | [] => ionAfterGap []
  | c :: rest =>
    match ionAfterGap (c :: rest) with
    | some r => some r
    | none => if c == '\n' then none else ionGap rest

/-- The IonTorrent alternative, anchored at the current position. -/
def tryIon (cs : List Char) : Option FqMatch := do
  let r1 ← stripCI ".r_".data cs
  let (d4, r2) ← takeExactDigits 4 r1
  let r3 ← expectChar '_' r2
  let (da, r4) ← takeExactDigits 2 r3
  let r5 ← expectChar '_' r4
  let (db, r6) ← takeExactDigits 2 r5
  let r7 ← expectChar '_' r6
  let (_, r8) ← takeExactDigits 2 r7
  let r9 ← expectChar '_' r8
  let (_, r10) ← takeExactDigits 2 r9
  let r11 ← expectChar '_' r10
  let (_, r12) ← takeExactDigits 2 r11
  let r13 ← stripCI "_user_".data r12
  let (src, date, sample) ← ionGap r13
  some (.ion (String.mk (d4 ++ '_' :: da ++ '_' :: db)) src date sample)

/-- `_S\d+_L\d{3}_R[12]_001\.fastq(?:\.gz)?$` (shared tail of the two
Illumina alternatives). -/
def sTail (cs : List Char) : Option Unit := do
  let r1 ← expectChar '_' cs
  let r2 ← expectCharCI 's' r1
  let (_, r3) ← takeDigits1 r2
  let r4 ← expectChar '_' r3
  let r5 ← expectCharCI 'l' r4
  let (_, r6) ← takeExactDigits 3 r5
  let r7 ← expectChar '_' r6
  let r8 ← expectCharCI 'r' r7
  let r9 ← (match r8 with
    | c :: rr => if c == '1' || c == '2' then some rr else none
    | [] => none)
  let r10 ← stripCI "_001".data r9
  let r11 ← stripCI ".fastq".data r10
  if gzEnd r11 then some () else none

/-- The Illumina alternative
`([LHVUR])-([A-Za-z0-9\-]+)_S\d+_L\d{3}_R[12]_001\.fastq(?:\.gz)?$`.
The `+` is maximal munch (`_` is not in the class). -/
def tryIllumina (cs : List Char) : Option FqMatch :=
  match cs with
  | c :: r1 =>
    if "lhvur".data.contains c.toLower then
      match r1 with
      | '-' :: r2 =>
        let sp := r2.span isIdChar
        if sp.1.isEmpty then none
        else
          match sTail sp.2 with
          | some _ => some (.illumina (String.mk [c]) (String.mk sp.1))
          | none => none
      | _ => none
    else none
  | [] => none

/-- The Illumina control alternative
`(NTC|PTC)_S\d+_L\d{3}_R[12]_001\.fastq(?:\.gz)?$`. -/
def trySpecial (cs : List Char) : Option FqMatch := do
  let (src, r1) ←
    (match stripCICap "ntc".data cs with
     | some r => some r
     | none => stripCICap "ptc".data cs)
  let _ ← sTail r1
  some (.special (String.mk src))

/-- `pattern_universal.search`: leftmost position, alternatives in pattern
order. -/
def tryAt (cs : List Char) : Option FqMatch :=
  match tryIon cs with
  | some m => some m
  | none =>
    match tryIllumina cs with
    | some m => some m
    | none => trySpecial cs

def searchFastq : List Char → Option FqMatch
  | [] => tryAt []
  | c :: rest =>
    match tryAt (c :: rest) with
    | some m => some m
    | none => searchFastq rest

/-! ## `extract_samples_with_details` (`app/analysis/utils.py`) -/

/-- One normalized sample record (the dict built per dedup key). -/
structure SampleRecord where
  source : String
  probennummer : String
  file_path : String
  run_date : Option String := none
  original_sample_date : Option String := none
deriving DecidableEq, Repr

/-- `source_map` from `extract_samples_with_details`. -/
def source_map : List (String × String) :=
  [("L", "Lebensmittel"), ("H", "Humanmedizinisch"),
   ("V", "Veterinärmedizinisch"), ("U", "Umgebung"), ("R", "Referenz"),
   ("TA", "Tierart"), ("NTC", "Negativkontrolle"),
   ("PTC", "Positivkontrolle")]

/-- The dedup key and record built from one regex match (the three
`if match.group(...)` branches of the loop body). -/
def recordOf (file_path : String) : FqMatch → String × SampleRecord
  | .ion runRaw src date sample =>
    let run_date := String.mk
      (runRaw.data.map (fun c => if c == '_' then '-' else c))
    let formatted := sDrop date 4 ++ "-" ++ sTake (sDrop date 2) 2
      ++ "-" ++ sTake date 2
    (src ++ "-" ++ formatted ++ "_S" ++ sample,
     { source := (source_map.lookup src).getD src,
       probennummer := formatted ++ "_S" ++ sample,
       file_path := dirname file_path,
       run_date := some run_date,
       original_sample_date := some date })
  | .illumina src id =>
    (src ++ "-" ++ id,
     { source := (source_map.lookup src).getD src,
       probennummer := id,
       file_path := dirname file_path })
  | .special src =>
    (src,
     { source := (source_map.lookup src).getD src,
       probennummer := src,
       file_path := dirname file_path })

/-- Parse one file path: `pattern_universal.search(basename(path))`,
then the key/record construction. -/
def parseFastqPair (file_path : String) : Option (String × SampleRecord) :=
  (searchFastq (basename file_path).data).map (recordOf file_path)

/-- Does the ordered dict already hold `k`? (`if key not in sample_dict`). -/
def containsKey (acc : List (String × SampleRecord)) (k : String) : Bool :=
  acc.any (fun p => p.1 == k)

/-- The `for file_path in fastq_files` loop of
`extract_samples_with_details`, with the `OrderedDict` as an ordered
association list. -/
def processLoop (acc : List (String × SampleRecord)) :
    List String → List (String × SampleRecord)
  | [] => acc
  | fp :: rest =>
    match parseFastqPair fp with
    | none => processLoop acc rest
    | some kr =>
      if containsKey acc kr.1 then processLoop acc rest
      else processLoop (acc ++ [kr]) rest

/-- The file enumeration of `extract_samples_with_details`: either the
bounded recursive scan or the flat listing (same eligibility filter). -/
def fastqFilesOf (folder_path : String) (entries : List FsEntry)
    (recursive : Bool) : List String :=
  if recursive then find_fastq_files_recursive folder_path entries 0
  else entries.filterMap (fun e =>
    match e with
    | .file n =>
      if eligibleFastqName n then some (folder_path ++ "/" ++ n) else none
    | .dir _ _ => none)

/-- `extract_samples_with_details` from `app/analysis/utils.py`
(`list(sample_dict.values())`). -/
def extract_samples_with_details (folder_path : String)
    (entries : List FsEntry) (recursive : Bool) : List SampleRecord :=
  (processLoop [] (fastqFilesOf folder_path entries recursive)).map Prod.snd

/-! ## Job store and `AnalysisService` (`app/analysis/services.py`)

The relational store is a `List Job` in insertion order; `query...first()`
is `List.find?`, `query.get(id)` is first-by-id, row mutation + commit is a
functional update of the list.  SSH gateway outcomes are oracle arguments:
`none` = the external command succeeded, `some e` = it failed with error
text `e`. -/

/-- The `parameters` JSON blob written by `create_and_start_job`. -/
structure JobParams where
  samples : List String
  input_path : Option String
  sample_count : Nat
deriving DecidableEq, Repr

/-- One `AnalysisJob` row. -/
structure Job where
  id : Nat
  user_id : Nat
  job_type : String
  job_code : Option String
  run_name : String
  parameters : Option JobParams
  status : String
  progress : Nat
  created_at : DateTime
  updated_at : Option DateTime
deriving DecidableEq, Repr

/-- The job table. -/
abbrev JobState := List Job

/-- `AnalysisJob.query.get(job_id)` (primary-key lookup). -/
def findById (s : JobState) (i : Nat) : Option Job :=
  s.find? (fun j => j.id == i)

/-- `params.get("input_path")` after
`json.loads(job.parameters) if job.parameters else {}`. -/
def inputPathOf (j : Job) : Option String :=
  j.parameters.bind (fun p => p.input_path)

/-- Update the row returned by a first-match query (primary keys are
unique, so the mutated ORM object is the first match). -/
def updateFirstP (p : Job → Bool) (f : Job → Job) : JobState → JobState
  | [] => []
  | j :: t => if p j then f j :: t else j :: updateFirstP p f t

/-- Update the row with the given id. -/
def updateFirstById (i : Nat) (f : Job → Job) (s : JobState) : JobState :=
  updateFirstP (fun j => j.id == i) f s

/-- `AnalysisService.cleanup_stuck_jobs`. -/
def cleanup_stuck_jobs (s : JobState) (now : DateTime) : JobState :=
  let cutoff := subMinutes now 720
  s.map (fun j =>
    if j.status == "running" && dtLtB j.created_at cutoff then
      { j with status := "failed" }
    else j)

/-- `AnalysisService.get_running_job`.  The job-code backfill mutates the
ORM object in memory; it is reflected in the state here (it is flushed by
the next commit on the session). -/
def get_running_job (s : JobState) (now : DateTime) (user_id : Nat) :
    JobState × Option Job :=
  let isRun := fun (j : Job) => j.user_id == user_id && j.status == "running"
  match s.find? isRun with
  | none => (s, none)
  | some j =>
    let cutoff := subMinutes now 60
    if dtLtB j.created_at cutoff then
      (updateFirstP isRun
        (fun x => { x with status := "failed", updated_at := some now }) s,
       none)
    else if (j.job_code.getD "") == "" then
      let code := j.job_type ++ fmtYYMMDD j.created_at.date ++ "_" ++ pad2 j.id
      (updateFirstP isRun (fun x => { x with job_code := some code }) s,
       some { j with job_code := some code })
    else (s, some j)

/-- `AnalysisService.create_and_start_job`.  `cwd` feeds `os.path.abspath`;
`freshId` is the surrogate key the store assigns; `sshRun` is the outcome
of `ssh_start_analysis` (`none` = dispatched). -/
def create_and_start_job (s : JobState) (clock : Clock) (cwd : String)
    (freshId : Nat) (sshRun : Option String) (user_id : Nat)
    (folder_path analysis_type run_name : String)
    (selected_samples : List String) :
    JobState × (Option Job × Option String) :=
  if (ANALYSIS_BASE_PATHS.lookup analysis_type).isNone then
    (s, (none, some ("Invalid analysis type: " ++ analysis_type)))
  else
    match s.find? (fun j => j.user_id == user_id && j.status == "running") with
    | some _ => (s, (none, some "Es läuft bereits eine Analyse"))
    | none =>
      match validate_path cwd folder_path (some analysis_type) with
      | .error e => (s, (none, some (pathErrMsg e)))
      | .ok validated_path =>
        let run_name :=
          if run_name == "" then basename (normpath folder_path) else run_name
        let job_count_today :=
          (s.filter (fun j =>
            dtLeB (startOfDay clock.utc) j.created_at
              && j.job_type == analysis_type)).length + 1
        let job_code := generate_job_code analysis_type job_count_today
          clock.localNow
        let job : Job :=
          { id := freshId, user_id := user_id, job_type := analysis_type,
            job_code := some job_code, run_name := run_name,
            parameters := some
              { samples := selected_samples,
                input_path := some validated_path,
                sample_count := selected_samples.length },
            status := "queued", progress := 0,
            created_at := clock.utc, updated_at := none }
        match sshRun with
        | none =>
          let j := { job with status := "running" }
          (s ++ [j], (some j, none))
        | some err =>
          let j := { job with status := "failed" }
          (s ++ [j],
           (some j,
            some (if err == "" then "Unbekannter Fehler beim Starten" else err)))

/-- `AnalysisService.cancel_job`.  `sshKill` is the outcome of
`ssh_kill_job`. -/
def cancel_job (s : JobState) (now : DateTime) (sshKill : Option String)
    (job_id user_id : Nat) : JobState × (Bool × Option String) :=
  match findById s job_id with
  | none => (s, (false, some "Job nicht gefunden"))
  | some j =>
    if j.user_id != user_id then (s, (false, some "Keine Berechtigung"))
    else if j.status != "running" then (s, (false, some "Job läuft nicht"))
    else
      let _job_identifier :=
        if (j.job_code.getD "") == "" then toString j.id else j.job_code.getD ""
      match sshKill with
      | none =>
        (updateFirstById job_id
          (fun x => { x with status := "failed", updated_at := some now }) s,
         (true, none))
      | some err => (s, (false, some err))

/-- `AnalysisService.force_reset_user_jobs`. -/
def force_reset_user_jobs (s : JobState) (now : DateTime) (user_id : Nat) :
    JobState × Nat :=
  (s.map (fun j =>
    if j.user_id == user_id && j.status == "running" then
      { j with status := "failed", updated_at := some now }
    else j),
   (s.filter (fun j => j.user_id == user_id && j.status == "running")).length)

/-- The JSON-shaped result of `get_job_progress`. -/
structure ProgressResult where
  status : Option String := none
  error : Option String := none
deriving DecidableEq, Repr

/-- Lower-case a string (ASCII case fold, as in these regex markers). -/
def lowerData (s : String) : List Char := s.data.map Char.toLower

/-- Substring containment on char lists. -/
def containsList (needle : List Char) : List Char → Bool
  | [] => startsWithList needle []
  | c :: cs => startsWithList needle (c :: cs) || containsList needle cs

/-- Case-insensitive substring containment (`re.search` of a plain
phrase with `re.IGNORECASE`). -/
def containsCI (hay phrase : String) : Bool :=
  containsList (lowerData phrase) (lowerData hay)

/-- `re.search(r"ERROR.*FATAL", log, re.IGNORECASE)`: an `error` followed
by a `fatal` with no newline in between (`.` does not match `\n`). -/
def errorFatal : List Char → Bool
  | [] => false
  | c :: cs =>
    (startsWithList "error".data (c :: cs)
      && containsList "fatal".data
        (((c :: cs).drop 5).takeWhile (fun x => !(x == '\n'))))
    || errorFatal cs

/-- The finished-marker pattern
`re.search(r"Analysis is ready|ANALYSIS COMPLETE", log, re.IGNORECASE)`. -/
def finishedMarker (log : String) : Bool :=
  containsCI log "Analysis is ready" || containsCI log "ANALYSIS COMPLETE"

/-- The failed-marker pattern
`re.search(r"Exiting pipeline|ANALYSIS FAILED|ERROR.*FATAL", log, re.IGNORECASE)`. -/
def failedMarker (log : String) : Bool :=
  containsCI log "Exiting pipeline" || containsCI log "ANALYSIS FAILED"
    || errorFatal (lowerData log)

/-- `AnalysisService.get_job_progress`.  `log_content` is the value of
`ssh_get_log(input_path, job.job_type)` (only read when the job is
`running`). -/
def get_job_progress (s : JobState) (now : DateTime) (log_content : String)
    (job_id user_id : Nat) : JobState × ProgressResult :=
  match findById s job_id with
  | none => (s, { error := some "Job nicht gefunden" })
  | some j =>
    if j.user_id != user_id then (s, { error := some "Unauthorized" })
    else
      match inputPathOf j with
      | none => (s, { status := some j.status, error := some "Kein Eingabepfad" })
      | some _ =>
        if j.status == "running" then
          if log_content != "" then
            if finishedMarker log_content then
              (updateFirstById job_id
                (fun x =>
                  { x with status := "finished", updated_at := some now }) s,
               { status := some "finished" })
            else if failedMarker log_content then
              (updateFirstById job_id
                (fun x =>
                  { x with status := "failed", updated_at := some now }) s,
               { status := some "failed" })
            else (s, { status := some j.status })
          else (s, { status := some j.status })
        else (s, { status := some j.status })

/-- `ssh_get_log` from `app/analysis/utils.py`: wraps a raw gateway
result (`.error e` = non-zero exit / timeout) into the log text. -/
def ssh_get_log (raw : Except String String) : String :=
  match raw with
  | .error e => "[ERROR] Log nicht verfügbar: " ++ e
  | .ok r => if r == "" then "[INFO] Noch kein Log verfügbar" else r

/-- `AnalysisService.get_job_log` (returns the `log` payload; the state is
never modified). -/
def get_job_log (s : JobState) (raw : Except String String)
    (job_id user_id : Nat) : String :=
  match findById s job_id with
  | none => "[ERROR] Job nicht gefunden"
  | some j =>
    if j.user_id != user_id then "[ERROR] Keine Berechtigung"
    else
      match inputPathOf j with
      | none => "[ERROR] Kein Eingabepfad in Job-Parametern"
      | some _ => truncate_log (ssh_get_log raw) MAX_LOG_SIZE

/-! ## The operations of the Job Lifecycle Manager as a step relation -/

/-- One invocation of a service operation, with its oracle inputs. -/
inductive Op where
  | create (clock : Clock) (cwd : String) (freshId : Nat)
      (sshRun : Option String) (uid : Nat) (path ty rname : String)
      (samples : List String)
  | cancel (now : DateTime) (sshKill : Option String) (jobId uid : Nat)
  | progress (now : DateTime) (log : String) (jobId uid : Nat)
  | cleanup (now : DateTime)
  | getRunning (now : DateTime) (uid : Nat)
  | forceReset (now : DateTime) (uid : Nat)
  | getLog (raw : Except String String) (jobId uid : Nat)

/-- The state reached after one operation. -/
def applyOp (s : JobState) : Op → JobState
  | .create clock cwd freshId sshRun uid path ty rname samples =>
    (create_and_start_job s clock cwd freshId sshRun uid path ty rname
      samples).1
  | .cancel now k jobId uid => (cancel_job s now k jobId uid).1
  | .progress now log jobId uid => (get_job_progress s now log jobId uid).1
  | .cleanup now => cleanup_stuck_jobs s now
  | .getRunning now uid => (get_running_job s now uid).1
  | .forceReset now uid => (force_reset_user_jobs s now uid).1
  | .getLog _ _ _ => s

/-- The state reached after a sequence of operations. -/
def applyOps (s : JobState) : List Op → JobState
  | [] => s
  | op :: ops => applyOps (applyOp s op) ops

/-- The status of the job with id `i`, as a first-match query. -/
def statusById (s : JobState) (i : Nat) : Option String :=
  (findById s i).map (fun j => j.status)

/-- The two terminal statuses. -/
def terminalStatus (st : String) : Prop :=
  st = "finished" ∨ st = "failed"

/-! ## Theorems -/

/-- C4: the Path Validator rejects the empty path with the BadRequest
condition regardless of the analysis-type hint, accepts `/bacteria/run1`
under type `wgs` returning the resolved absolute path, and rejects
`/etc/passwd` under type `wgs` with the Forbidden condition. -/
theorem spec_C4_path_validator :
    (∀ (hint : Option String) (cwd : String),
      validate_path cwd "" hint = .error (.badRequest "Pfad ist leer"))
    ∧ (∀ cwd : String,
      validate_path cwd "/bacteria/run1" (some "wgs") = .ok "/bacteria/run1")
    ∧ (∀ cwd : String,
      validate_path cwd "/etc/passwd" (some "wgs")
        = .error (.forbidden "Zugriff außerhalb des erlaubten Bereichs")) :=
  ⟨fun _ _ => rfl, fun _ => rfl, fun _ => rfl⟩

/-- Containment of a path in a base directory in the component-correct
sense: the path is the base itself or lies strictly below it.  (The spec's
intended meaning of "within the permitted area"; `validate_path` instead
uses a bare string-prefix test.) -/
def insideBaseDir (base p : String) : Bool :=
  p == base || sStartsWith p (base ++ "/")

/-- C10: the containment test of `validate_path` is a bare string-prefix
comparison, so `/bacteriaEvil/x` — outside every permitted base directory —
is accepted and returned instead of being rejected as outside the
permitted area. -/
theorem spec_C10_prefix_confinement_bypass :
    validate_path "/" "/bacteriaEvil/x" (some "wgs") = .ok "/bacteriaEvil/x"
    ∧ insideBaseDir "/bacteria" "/bacteriaEvil/x" = false
    ∧ insideBaseDir "/animalSpecies" "/bacteriaEvil/x" = false := by
  refine ⟨rfl, ?_, ?_⟩ <;> decide

/-- C7: `truncate_log` leaves a body of at most `max_size` characters
unchanged and otherwise keeps exactly the trailing `max_size` characters
followed by the fixed truncation suffix, for every positive size
(`MAX_LOG_SIZE`, the configured default, is 1 MiB).  Size is Python's
`len` on the `str`, i.e. the character count. -/
theorem spec_C7_truncate_log :
    MAX_LOG_SIZE = 1024 * 1024
    ∧ ∀ (s : String) (m : Nat),
        truncate_log s (m + 1)
          = if s.length ≤ m + 1 then s
            else sDrop s (s.length - (m + 1)) ++ "\n[INFO] Log gekürzt..." := by
  refine ⟨rfl, fun s m => ?_⟩
  by_cases h : s.length ≤ m + 1
  · simp [truncate_log, h]
  · have hne : (s == "") = false := by
      rcases eq_or_ne s "" with rfl | hs
      · simp at h
      · simpa using hs
    simp [truncate_log, h, hne]

/-- Unfolding: descent beyond the bound is cut off. -/
theorem ff_cut (fp : String) (entries : List FsEntry) (d : Nat)
    (h : d > MAX_RECURSIVE_DEPTH) :
    find_fastq_files_recursive fp entries d = [] := by
  rw [find_fastq_files_recursive.eq_def]
  simp [h]

/-- Unfolding: empty listing. -/
theorem ff_nil (fp : String) (d : Nat) :
    find_fastq_files_recursive fp [] d = [] := by
  rw [find_fastq_files_recursive.eq_def]
  simp

/-- Unfolding: a file entry at an in-budget depth. -/
theorem ff_file (fp n : String) (rest : List FsEntry) (d : Nat)
    (h : ¬ d > MAX_RECURSIVE_DEPTH) :
    find_fastq_files_recursive fp (.file n :: rest) d
      = (if eligibleFastqName n then [fp ++ "/" ++ n] else [])
        ++ find_fastq_files_recursive fp rest d := by
  rw [find_fastq_files_recursive.eq_def]
  simp [h]

/-- Unfolding: a directory entry at an in-budget depth. -/
theorem ff_dir (fp n : String) (ch rest : List FsEntry) (d : Nat)
    (h : ¬ d > MAX_RECURSIVE_DEPTH) :
    find_fastq_files_recursive fp (.dir n ch :: rest) d
      = (if sStartsWith n "." then []
         else find_fastq_files_recursive (fp ++ "/" ++ n) ch (d + 1))
        ++ find_fastq_files_recursive fp rest d := by
  rw [find_fastq_files_recursive.eq_def]
  simp [h]

/-- Unfolding lemmas for `pruneTree`. -/
theorem pt_nil (k : Nat) : pruneTree k [] = [] := by
  rw [pruneTree.eq_def]

theorem pt_file (k : Nat) (n : String) (rest : List FsEntry) :
    pruneTree k (.file n :: rest) = .file n :: pruneTree k rest := by
  rw [pruneTree.eq_def]

theorem pt_dir_zero (n : String) (ch rest : List FsEntry) :
    pruneTree 0 (.dir n ch :: rest) = .dir n [] :: pruneTree 0 rest := by
  rw [pruneTree.eq_def]

theorem pt_dir_succ (k : Nat) (n : String) (ch rest : List FsEntry) :
    pruneTree (k + 1) (.dir n ch :: rest)
      = .dir n (pruneTree k ch) :: pruneTree (k + 1) rest := by
  rw [pruneTree.eq_def]

/-- The scanner agrees with its depth-`k` pruning while the remaining
budget is `k`: everything deeper than the budget is never visited. -/
theorem find_fastq_prune (fp : String) (entries : List FsEntry) (d : Nat)
    (h : d ≤ MAX_RECURSIVE_DEPTH) :
    find_fastq_files_recursive fp entries d
      = find_fastq_files_recursive fp
          (pruneTree (MAX_RECURSIVE_DEPTH - d) entries) d := by
  induction fp, entries, d using find_fastq_files_recursive.induct with
  | case1 fp entries d hd =>
    omega
  | case2 fp d hd =>
    rw [pt_nil]
  | case3 fp d hd n rest ih =>
    rw [ff_file _ _ _ _ hd, pt_file, ff_file _ _ _ _ hd, ih h]
  | case4 fp d hd n ch rest ih1 ih2 =>
    rcases Nat.eq_or_lt_of_le h with heq | hlt
    · have hz : MAX_RECURSIVE_DEPTH - d = 0 := by omega
      rw [ff_dir _ _ _ _ _ hd, hz, pt_dir_zero, ff_dir _ _ _ _ _ hd, ih2 h, hz]
      have h6 : d + 1 > MAX_RECURSIVE_DEPTH := by omega
      rw [ff_cut _ _ _ h6, ff_nil]
    · have hs : MAX_RECURSIVE_DEPTH - d = (MAX_RECURSIVE_DEPTH - (d + 1)) + 1 := by
        omega
      rw [ff_dir _ _ _ _ _ hd, hs, pt_dir_succ, ff_dir _ _ _ _ _ hd, ih2 h, hs]
      by_cases hdot : sStartsWith n "."
      · simp [hdot]
      · simp [hdot, ih1 (by omega)]

/-- C5: the recursive scan never descends more than `MAX_RECURSIVE_DEPTH`
(= 5) directory levels below the starting directory — its result on any
tree equals its result on the tree pruned at depth 5, so deeper branches
contribute nothing — and any call at a depth beyond the bound is cut off
to the empty list rather than failing.  (Termination on every tree is
witnessed by `find_fastq_files_recursive` being a total function.) -/
theorem spec_C5_depth_bound :
    (∀ (fp : String) (entries : List FsEntry),
      find_fastq_files_recursive fp entries 0
        = find_fastq_files_recursive fp
            (pruneTree MAX_RECURSIVE_DEPTH entries) 0)
    ∧ ∀ (fp : String) (entries : List FsEntry) (d : Nat),
        find_fastq_files_recursive fp entries (MAX_RECURSIVE_DEPTH + 1 + d)
          = [] := by
  constructor
  · intro fp entries
    simpa using find_fastq_prune fp entries 0 (by decide)
  · intro fp entries d
    exact ff_cut fp entries _ (by omega)

/-! ### C6: first-seen-wins deduplication -/

/-- Reference definition following the spec's words: records with equal
keys are merged, first-seen wins, first-seen key order is kept.  Compared
against the `OrderedDict` loop of the source. -/
def firstSeenDedup : List (String × SampleRecord) → List (String × SampleRecord)
  | [] => []
  | p :: t => p :: firstSeenDedup (t.filter (fun q => !(p.1 == q.1)))
termination_by l => l.length
decreasing_by
  simpa using Nat.lt_succ_of_le (List.length_filter_le _ t)

/-- The source loop, re-expressed over the already-parsed key/record
stream. -/
def insertListKeyed (acc : List (String × SampleRecord)) :
    List (String × SampleRecord) → List (String × SampleRecord)
  | [] => acc
  | kr :: t =>
    if containsKey acc kr.1 then insertListKeyed acc t
    else insertListKeyed (acc ++ [kr]) t

theorem processLoop_filterMap (files : List String)
    (acc : List (String × SampleRecord)) :
    processLoop acc files
      = insertListKeyed acc (files.filterMap parseFastqPair) := by
  induction files generalizing acc with
  | nil => rfl
  | cons fp rest ih =>
    rw [processLoop, List.filterMap_cons]
    cases hp : parseFastqPair fp with
    | none => exact ih acc
    | some kr =>
      rw [insertListKeyed]
      by_cases hc : containsKey acc kr.1
      · simp only [hc, if_true, ite_true]
        exact ih acc
      · simp only [hc, if_false, ite_false]
        exact ih (acc ++ [kr])

theorem containsKey_append (acc : List (String × SampleRecord))
    (kr : String × SampleRecord) (k : String) :
    containsKey (acc ++ [kr]) k = (containsKey acc k || (kr.1 == k)) := by
  simp [containsKey, List.any_append]

theorem insertListKeyed_dedup (keyed : List (String × SampleRecord)) :
    ∀ acc, insertListKeyed acc keyed
      = acc ++ firstSeenDedup (keyed.filter (fun q => !(containsKey acc q.1))) := by
  induction keyed with
  | nil => intro acc; simp [insertListKeyed, firstSeenDedup]
  | cons kr t ih =>
    intro acc
    rw [insertListKeyed]
    by_cases hc : containsKey acc kr.1
    · simp only [hc, if_true, ite_true, List.filter_cons]
      rw [ih acc]
      simp [hc]
    · have hfilter :
          t.filter (fun q => !(containsKey (acc ++ [kr]) q.1))
            = (t.filter (fun q => !(containsKey acc q.1))).filter
                (fun q => !(kr.1 == q.1)) := by
        rw [List.filter_filter]
        apply List.filter_congr
        intro q _
        rw [containsKey_append]
        cases containsKey acc q.1 <;> cases kr.1 == q.1 <;> rfl
      rw [if_neg hc, ih (acc ++ [kr]),
        List.filter_cons_of_pos (by simpa using hc), firstSeenDedup, hfilter]
      simp

/-- Membership in the dedup output implies membership in the input. -/
theorem mem_firstSeenDedup (x : String × SampleRecord) :
    ∀ l, x ∈ firstSeenDedup l → x ∈ l := by
  intro l
  induction l using firstSeenDedup.induct with
  | case1 => simp [firstSeenDedup]
  | case2 p t ih =>
    rw [firstSeenDedup]
    intro hx
    rcases List.mem_cons.mp hx with rfl | hx
    · exact List.mem_cons_self _ _
    · exact List.mem_cons_of_mem _ (List.mem_of_mem_filter (ih hx))

/-- The dedup output has pairwise distinct keys. -/
theorem firstSeenDedup_keys_nodup :
    ∀ l, ((firstSeenDedup l).map Prod.fst).Nodup := by
  intro l
  induction l using firstSeenDedup.induct with
  | case1 => simp [firstSeenDedup]
  | case2 p t ih =>
    rw [firstSeenDedup]
    refine List.nodup_cons.mpr ⟨?_, ih⟩
    intro hmem
    rcases List.mem_map.mp hmem with ⟨q, hq, hfst⟩
    have hqf := mem_firstSeenDedup q _ hq
    have := List.of_mem_filter hqf
    rw [hfst] at this
    simp at this

/-- First-match lookup is unchanged by dropping later duplicates of a
different key. -/
theorem find_filter_ne (p1 k : String)
    (h : (p1 == k) = false) :
    ∀ t : List (String × SampleRecord),
      (t.filter (fun q => !(p1 == q.1))).find? (fun q => q.1 == k)
        = t.find? (fun q => q.1 == k) := by
  intro t
  induction t with
  | nil => rfl
  | cons q t ih =>
    by_cases hq : (q.1 == k) = true
    · have h2 : q.1 = k := by simpa using hq
      have hnot : (p1 == q.1) = false := by rw [h2]; exact h
      rw [List.filter_cons_of_pos (by simp [hnot])]
      simp only [List.find?_cons, hq]
    · have hq' : (q.1 == k) = false := by simpa using hq
      by_cases hpq : (p1 == q.1) = true
      · rw [List.filter_cons_of_neg (by simp [hpq])]
        simp only [List.find?_cons, hq']
        exact ih
      · rw [List.filter_cons_of_pos (by simpa using hpq)]
        simp only [List.find?_cons, hq']
        exact ih

/-- First-match lookup through `firstSeenDedup` agrees with first-match
lookup in the raw keyed stream. -/
theorem firstSeenDedup_find (k : String) :
    ∀ l : List (String × SampleRecord),
      (firstSeenDedup l).find? (fun q => q.1 == k)
        = l.find? (fun q => q.1 == k) := by
  intro l
  induction l using firstSeenDedup.induct with
  | case1 => rw [firstSeenDedup]
  | case2 p t ih =>
    rw [firstSeenDedup, List.find?_cons, List.find?_cons]
    by_cases hp : (p.1 == k) = true
    · rw [hp]
    · have hp' : (p.1 == k) = false := by simpa using hp
      rw [hp', ih, find_filter_ne p.1 k hp']

/-- C6: `extract_samples_with_details` performs first-seen-wins
deduplication on the parsed key/record stream of the scanned files: the
result is exactly the per-key-unique, first-seen-ordered record list, its
keys are pairwise distinct, and for every key the kept record is the one
derived from the first file of that key in traversal order. -/
theorem spec_C6_sample_dedup :
    ∀ (folder_path : String) (entries : List FsEntry) (recursive : Bool),
      extract_samples_with_details folder_path entries recursive
          = (firstSeenDedup ((fastqFilesOf folder_path entries
              recursive).filterMap parseFastqPair)).map Prod.snd
        ∧ ((firstSeenDedup ((fastqFilesOf folder_path entries
              recursive).filterMap parseFastqPair)).map Prod.fst).Nodup
        ∧ ∀ k : String,
            (firstSeenDedup ((fastqFilesOf folder_path entries
                recursive).filterMap parseFastqPair)).find?
                (fun q => q.1 == k)
              = ((fastqFilesOf folder_path entries
                  recursive).filterMap parseFastqPair).find?
                  (fun q => q.1 == k) := by
  intro folder_path entries recursive
  refine ⟨?_, firstSeenDedup_keys_nodup _, fun k => firstSeenDedup_find k _⟩
  rw [extract_samples_with_details, processLoop_filterMap,
    insertListKeyed_dedup]
  simp [containsKey]

/-! ### C1/C2/C3/C8: the service operations -/

/-- A concrete fixture: a `running` job of user 7. -/
def runningJob7 : Job :=
  { id := 3, user_id := 7, job_type := "wgs",
    job_code := some "wgs241009_01", run_name := "r",
    parameters := some
      { samples := ["a"], input_path := some "/bacteria/run1",
        sample_count := 1 },
    status := "running", progress := 0,
    created_at := ⟨⟨2024, 10, 9⟩, 600⟩, updated_at := none }

theorem toString_length_lt10 (n : Nat) (h : n < 10) :
    (toString n).length = 1 := by
  interval_cases n <;> rfl

theorem pad2_length (n : Nat) (h : n < 100) : (pad2 n).length = 2 := by
  by_cases h10 : n < 10
  · rw [pad2, if_pos h10, String.length_append, toString_length_lt10 n h10]
    rfl
  · rw [pad2, if_neg h10]
    have hle : 10 ≤ n := Nat.le_of_not_lt h10
    interval_cases n <;> rfl

/-- C1 (amended): a job created by `create_and_start_job` as the `N`-th
same-type job counted from UTC midnight carries the job code
`{type}{YYMMDD}_{NN}` where the day is the **server-local** calendar day at
creation (the count boundary stays UTC midnight), and `NN` is `N`
zero-padded to 2 digits for `N < 100`.  This holds for both gateway
outcomes. -/
theorem spec_C1_job_code_amended
    (s : JobState) (clock : Clock) (cwd : String) (freshId : Nat)
    (sshRun : Option String) (uid : Nat)
    (folder_path analysis_type run_name : String) (samples : List String)
    (hty : (ANALYSIS_BASE_PATHS.lookup analysis_type).isSome = true)
    (hrun : s.find? (fun j => j.user_id == uid && j.status == "running")
      = none)
    (vp : String)
    (hval : validate_path cwd folder_path (some analysis_type) = .ok vp)
    (hN : (s.filter (fun j => dtLeB (startOfDay clock.utc) j.created_at
        && j.job_type == analysis_type)).length + 1 < 100) :
    ((create_and_start_job s clock cwd freshId sshRun uid folder_path
        analysis_type run_name samples).2.1).map (fun j => j.job_code)
      = some (some (analysis_type ++ fmtYYMMDD clock.localNow.date
          ++ "_" ++ pad2 ((s.filter (fun x =>
              dtLeB (startOfDay clock.utc) x.created_at
                && x.job_type == analysis_type)).length + 1)))
    ∧ (pad2 ((s.filter (fun x =>
        dtLeB (startOfDay clock.utc) x.created_at
          && x.job_type == analysis_type)).length + 1)).length = 2 := by
  obtain ⟨b, hb⟩ := Option.isSome_iff_exists.mp hty
  refine ⟨?_, pad2_length _ hN⟩
  cases sshRun with
  | none => simp [create_and_start_job, hb, hrun, hval, generate_job_code]
  | some err => simp [create_and_start_job, hb, hrun, hval, generate_job_code]

/-- Witness for the amended C1 at a concrete input (empty store, clocks in
agreement, valid `wgs` path): the created job is coded `wgs241009_01`. -/
theorem spec_C1_job_code_amended_witness :
    ((create_and_start_job [] ⟨⟨⟨2024, 10, 9⟩, 600⟩, ⟨⟨2024, 10, 9⟩, 600⟩⟩
        "/" 1 none 7 "/bacteria/run1" "wgs" "r" ["a"]).2.1).map
        (fun j => j.job_code)
      = some (some ("wgs" ++ fmtYYMMDD ⟨2024, 10, 9⟩ ++ "_" ++ pad2 1))
    ∧ (pad2 1).length = 2 := by
  have h := spec_C1_job_code_amended []
    ⟨⟨⟨2024, 10, 9⟩, 600⟩, ⟨⟨2024, 10, 9⟩, 600⟩⟩ "/" 1 none 7
    "/bacteria/run1" "wgs" "r" ["a"] (by decide) (by decide)
    "/bacteria/run1" (by rfl) (by decide)
  simpa using h

set_option maxRecDepth 8192 in
/-- C1 counterexample: with the server clock two hours ahead of UTC
(23:30 UTC on 2024-10-09 is 01:30 local on 2024-10-10), the first `wgs`
job of the UTC day 2024-10-09 is coded `wgs241010_01`, not the
`wgs241009_01` the claim's UTC-day formatting predicts —
`generate_job_code` formats the naive local `datetime.now()` while the
counter is bounded at UTC midnight. -/
theorem spec_C1_counterexample :
    ((create_and_start_job [] ⟨⟨⟨2024, 10, 9⟩, 1410⟩, ⟨⟨2024, 10, 10⟩, 90⟩⟩
        "/" 1 none 7 "/bacteria/run1" "wgs" "r" ["a"]).2.1).map
        (fun j => j.job_code) = some (some "wgs241010_01")
    ∧ (⟨⟨2024, 10, 10⟩, 90⟩ : DateTime)
        = addMinutes ⟨⟨2024, 10, 9⟩, 1410⟩ 120
    ∧ "wgs241010_01" ≠ "wgs" ++ fmtYYMMDD ⟨2024, 10, 9⟩ ++ "_" ++ pad2 1 := by
  refine ⟨by rfl, by decide, by decide⟩

/-- C2 (amended): while the user owns a `running` job, any
`create_and_start_job` call leaves the store unchanged and creates no job;
if the analysis type is recognized the error is the conflict message
`Es läuft bereits eine Analyse` (an unrecognized type is rejected earlier
with `Invalid analysis type: ...`, still without persisting anything). -/
theorem spec_C2_running_conflict_amended
    (s : JobState) (clock : Clock) (cwd : String) (freshId : Nat)
    (sshRun : Option String) (uid : Nat) (path ty rname : String)
    (samples : List String)
    (hrun : (s.find? (fun j => j.user_id == uid && j.status == "running")).isSome
      = true) :
    (create_and_start_job s clock cwd freshId sshRun uid path ty rname
        samples).1 = s
    ∧ (create_and_start_job s clock cwd freshId sshRun uid path ty rname
        samples).2.1 = none
    ∧ ((ANALYSIS_BASE_PATHS.lookup ty).isSome = true →
        (create_and_start_job s clock cwd freshId sshRun uid path ty rname
          samples).2.2 = some "Es läuft bereits eine Analyse") := by
  obtain ⟨j, hj⟩ := Option.isSome_iff_exists.mp hrun
  by_cases hty : (ANALYSIS_BASE_PATHS.lookup ty).isNone
  · refine ⟨?_, ?_, ?_⟩
    · simp [create_and_start_job, hty]
    · simp [create_and_start_job, hty]
    · intro hs
      rw [Option.isNone_iff_eq_none] at hty
      rw [hty] at hs
      simp at hs
  · refine ⟨?_, ?_, fun _ => ?_⟩ <;> simp [create_and_start_job, hty, hj]

/-- Witness for the amended C2: user 7 already runs `runningJob7`; a
second, fully valid `wgs` request is rejected with the conflict error and
the store is unchanged. -/
theorem spec_C2_running_conflict_amended_witness :
    (create_and_start_job [runningJob7] ⟨⟨⟨2024, 10, 9⟩, 700⟩, ⟨⟨2024, 10, 9⟩, 700⟩⟩
        "/" 9 none 7 "/bacteria/run2" "wgs" "r2" ["b"]).1 = [runningJob7]
    ∧ (create_and_start_job [runningJob7] ⟨⟨⟨2024, 10, 9⟩, 700⟩, ⟨⟨2024, 10, 9⟩, 700⟩⟩
        "/" 9 none 7 "/bacteria/run2" "wgs" "r2" ["b"]).2.1 = none
    ∧ (create_and_start_job [runningJob7] ⟨⟨⟨2024, 10, 9⟩, 700⟩, ⟨⟨2024, 10, 9⟩, 700⟩⟩
        "/" 9 none 7 "/bacteria/run2" "wgs" "r2" ["b"]).2.2
      = some "Es läuft bereits eine Analyse" := by
  have h := spec_C2_running_conflict_amended [runningJob7]
    ⟨⟨⟨2024, 10, 9⟩, 700⟩, ⟨⟨2024, 10, 9⟩, 700⟩⟩ "/" 9 none 7
    "/bacteria/run2" "wgs" "r2" ["b"] (by decide)
  exact ⟨h.1, h.2.1, h.2.2 (by decide)⟩

/-- C2 counterexample: user 7 already runs a job, but a call with the
unrecognized analysis type `bogus` fails with the invalid-type error, not
the conflict error (the type check precedes the running-job check); no job
is persisted either way. -/
theorem spec_C2_counterexample :
    (([runningJob7].find?
        (fun j => j.user_id == 7 && j.status == "running")).isSome = true)
    ∧ (create_and_start_job [runningJob7] ⟨⟨⟨2024, 10, 9⟩, 700⟩, ⟨⟨2024, 10, 9⟩, 700⟩⟩
        "/" 9 none 7 "/bacteria/x" "bogus" "" []).2.2
      = some "Invalid analysis type: bogus"
    ∧ (create_and_start_job [runningJob7] ⟨⟨⟨2024, 10, 9⟩, 700⟩, ⟨⟨2024, 10, 9⟩, 700⟩⟩
        "/" 9 none 7 "/bacteria/x" "bogus" "" []).1 = [runningJob7]
    ∧ some "Invalid analysis type: bogus" ≠ some "Es läuft bereits eine Analyse" := by
  refine ⟨by decide, by decide, by decide, by decide⟩

/-- C3 (amended): for a `running` job polled by its owner with an input
path on record, `get_job_progress` transitions to `finished` whenever the
fetched log contains `ANALYSIS COMPLETE` (any case); it transitions to
`failed` whenever the log contains `ANALYSIS FAILED` (any case) **and no
finished-marker is present** (the finished-marker check runs first); and
it leaves the status `running` when the log matches neither the
finished-marker nor the failed-marker pattern.  The returned payload
reports the possibly-updated status. -/
theorem spec_C3_poll_transitions_amended
    (s : JobState) (now : DateTime) (jid uid : Nat) (j : Job)
    (hfind : findById s jid = some j) (hown : j.user_id = uid)
    (ip : String) (hip : inputPathOf j = some ip)
    (hst : j.status = "running") :
    ∀ log : String,
      (containsCI log "ANALYSIS COMPLETE" = true →
        get_job_progress s now log jid uid
          = (updateFirstById jid (fun x =>
              { x with status := "finished", updated_at := some now }) s,
             { status := some "finished" }))
      ∧ (containsCI log "ANALYSIS FAILED" = true →
          finishedMarker log = false →
        get_job_progress s now log jid uid
          = (updateFirstById jid (fun x =>
              { x with status := "failed", updated_at := some now }) s,
             { status := some "failed" }))
      ∧ (finishedMarker log = false → failedMarker log = false →
        get_job_progress s now log jid uid = (s, { status := some "running" })) := by
  intro log
  refine ⟨fun hc => ?_, fun hc hnf => ?_, fun hnf hnb => ?_⟩
  · have hne : log ≠ "" := by
      intro heq
      rw [heq] at hc
      exact absurd hc (by decide)
    have hbe : (log == "") = false := beq_eq_false_iff_ne.mpr hne
    have hfin : finishedMarker log = true := by
      rw [finishedMarker, hc]
      simp
    simp [get_job_progress, hfind, hown, hip, hst, hbe, hne, hfin]
  · have hne : log ≠ "" := by
      intro heq
      rw [heq] at hc
      exact absurd hc (by decide)
    have hbe : (log == "") = false := beq_eq_false_iff_ne.mpr hne
    have hfm : failedMarker log = true := by
      rw [failedMarker, hc]
      simp
    simp [get_job_progress, hfind, hown, hip, hst, hbe, hne, hnf, hfm]
  · by_cases hempty : log = ""
    · simp [get_job_progress, hfind, hown, hip, hst, hempty]
    · have hbe : (log == "") = false := beq_eq_false_iff_ne.mpr hempty
      simp [get_job_progress, hfind, hown, hip, hst, hbe, hempty, hnf, hnb]

/-- Witness for the amended C3 on `runningJob7`: a `COMPLETE` log
finishes the job, a failure-only log fails it, a markerless log leaves it
running. -/
theorem spec_C3_poll_transitions_amended_witness :
    (get_job_progress [runningJob7] ⟨⟨2024, 10, 9⟩, 660⟩
        "xx ANALYSIS complete" 3 7).2 = { status := some "finished" }
    ∧ (get_job_progress [runningJob7] ⟨⟨2024, 10, 9⟩, 660⟩
        "xx analysis FAILED" 3 7).2 = { status := some "failed" }
    ∧ (get_job_progress [runningJob7] ⟨⟨2024, 10, 9⟩, 660⟩
        "nothing to see" 3 7).2 = { status := some "running" } := by
  have h1 := spec_C3_poll_transitions_amended [runningJob7] ⟨⟨2024, 10, 9⟩, 660⟩
    3 7 runningJob7 (by rfl) (by rfl) "/bacteria/run1" (by rfl) (by rfl)
    "xx ANALYSIS complete"
  have h2 := spec_C3_poll_transitions_amended [runningJob7] ⟨⟨2024, 10, 9⟩, 660⟩
    3 7 runningJob7 (by rfl) (by rfl) "/bacteria/run1" (by rfl) (by rfl)
    "xx analysis FAILED"
  have h3 := spec_C3_poll_transitions_amended [runningJob7] ⟨⟨2024, 10, 9⟩, 660⟩
    3 7 runningJob7 (by rfl) (by rfl) "/bacteria/run1" (by rfl) (by rfl)
    "nothing to see"
  refine ⟨?_, ?_, ?_⟩
  · rw [h1.1 (by decide)]
  · rw [h2.2.1 (by decide) (by decide)]
  · rw [h3.2.2 (by decide) (by decide)]

set_option maxRecDepth 8192 in
/-- C3 counterexample: a log containing both markers —
`"ANALYSIS COMPLETE ANALYSIS FAILED"` — drives a `running` job to
`finished`, not to `failed` as the claim's failed-clause predicts: the
finished-pattern check takes precedence in `get_job_progress`. -/
theorem spec_C3_counterexample :
    containsCI "ANALYSIS COMPLETE ANALYSIS FAILED" "ANALYSIS FAILED" = true
    ∧ (get_job_progress [runningJob7] ⟨⟨2024, 10, 9⟩, 660⟩
        "ANALYSIS COMPLETE ANALYSIS FAILED" 3 7).2.status = some "finished"
    ∧ statusById (get_job_progress [runningJob7] ⟨⟨2024, 10, 9⟩, 660⟩
        "ANALYSIS COMPLETE ANALYSIS FAILED" 3 7).1 3 = some "finished"
    ∧ some "finished" ≠ (some "failed" : Option String) := by
  refine ⟨by decide, by decide, by decide, by decide⟩

/-- C8: `cancel_job` is read-only in its failure cases: a caller who is
not the job's owner gets the authorization error with the store (and so
the job's status) unchanged, and a failing gateway kill leaves the store
unchanged — the job stays `running` — while the gateway's error text is
returned. -/
theorem spec_C8_cancel_frame
    (s : JobState) (now : DateTime) (jid uid : Nat) (j : Job)
    (hfind : findById s jid = some j) :
    (j.user_id ≠ uid → ∀ k : Option String,
      cancel_job s now k jid uid = (s, (false, some "Keine Berechtigung")))
    ∧ (j.user_id = uid → j.status = "running" → ∀ e : String,
      cancel_job s now (some e) jid uid = (s, (false, some e))) := by
  constructor
  · intro hneq k
    have hb : (j.user_id == uid) = false := beq_eq_false_iff_ne.mpr hneq
    simp [cancel_job, hfind, hb, hneq]
  · intro hown hst e
    simp [cancel_job, hfind, hown, hst]

/-- Witness for C8 on `runningJob7`: a non-owner cancel and a failing
kill both leave the store — and the job's `running` status — untouched. -/
theorem spec_C8_cancel_frame_witness :
    cancel_job [runningJob7] ⟨⟨2024, 10, 9⟩, 660⟩ none 3 8
      = ([runningJob7], (false, some "Keine Berechtigung"))
    ∧ cancel_job [runningJob7] ⟨⟨2024, 10, 9⟩, 660⟩ (some "kill broke") 3 7
      = ([runningJob7], (false, some "kill broke")) := by
  have h := spec_C8_cancel_frame [runningJob7] ⟨⟨2024, 10, 9⟩, 660⟩ 3 8
    runningJob7 (by rfl)
  have h2 := spec_C8_cancel_frame [runningJob7] ⟨⟨2024, 10, 9⟩, 660⟩ 3 7
    runningJob7 (by rfl)
  exact ⟨h.1 (by decide) none, h2.2 (by rfl) (by rfl) "kill broke"⟩

/-! ### C9: terminal states are absorbing -/

theorem find?_append_some {α : Type} {p : α → Bool} {s : List α} {j : α}
    (h : s.find? p = some j) (t : List α) : (s ++ t).find? p = some j := by
  induction s with
  | nil => exact absurd h (by simp)
  | cons a s ih =>
    cases ha : p a with
    | true =>
      rw [List.find?_cons_of_pos _ ha] at h
      rw [List.cons_append, List.find?_cons_of_pos _ ha]
      exact h
    | false =>
      rw [List.find?_cons_of_neg _ (by simp [ha])] at h
      rw [List.cons_append, List.find?_cons_of_neg _ (by simp [ha])]
      exact ih h

/-- Mapping an id-preserving row function commutes with primary-key
lookup. -/
theorem findById_map (f : Job → Job) (hid : ∀ x, (f x).id = x.id)
    (s : JobState) (i : Nat) :
    findById (s.map f) i = (findById s i).map f := by
  induction s with
  | nil => rfl
  | cons a t ih =>
    by_cases ha : (a.id == i) = true
    · have ha' : ((f a).id == i) = true := by rw [hid a]; exact ha
      simp only [List.map_cons, findById, List.find?_cons, ha, ha',
        Option.map_some']
    · have ha' : ((f a).id == i) = false := by
        rw [hid a]; simpa using ha
      have ha2 : (a.id == i) = false := by simpa using ha
      simp only [List.map_cons, findById, List.find?_cons, ha2, ha']
      exact ih

/-- A first-match update of a *different* id does not change a lookup. -/
theorem findById_updateFirstById_ne (f : Job → Job)
    (hid : ∀ x, (f x).id = x.id) (jid i : Nat) (hne : jid ≠ i)
    (s : JobState) :
    findById (updateFirstById jid f s) i = findById s i := by
  induction s with
  | nil => rfl
  | cons a t ih =>
    rw [updateFirstById, updateFirstP]
    by_cases ha : (a.id == jid) = true
    · have haj : a.id = jid := by simpa using ha
      have hai : (a.id == i) = false := by simp [haj, hne]
      have hfi : ((f a).id == i) = false := by rw [hid a]; exact hai
      rw [if_pos ha]
      simp only [findById, List.find?_cons, hai, hfi]
    · rw [if_neg ha]
      by_cases hai : (a.id == i) = true
      · simp only [findById, List.find?_cons, hai]
      · have hai' : (a.id == i) = false := by simpa using hai
        simp only [findById, List.find?_cons, hai']
        rw [updateFirstById] at ih
        exact ih

/-- A first-match update whose target row is known `running` cannot touch
a job read with a non-`running` status. -/
theorem statusById_updateFirstById_of_running
    (s : JobState) (jid i : Nat) (st : String)
    (f : Job → Job) (hid : ∀ x, (f x).id = x.id)
    (hrun : ∃ j, findById s jid = some j ∧ j.status = "running")
    (h : statusById s i = some st) (hterm : st ≠ "running") :
    statusById (updateFirstById jid f s) i = some st := by
  by_cases hij : jid = i
  · subst hij
    obtain ⟨j, hj, hjs⟩ := hrun
    rw [statusById, hj] at h
    simp at h
    rw [← h] at hterm
    exact absurd hjs hterm
  · rw [statusById, findById_updateFirstById_ne f hid jid i hij s]
    exact h

/-- A whole-table map that fixes rows of status `st` preserves a lookup
reading `st`. -/
theorem statusById_map_pres (f : Job → Job) (hid : ∀ x, (f x).id = x.id)
    (s : JobState) (i : Nat) (st : String)
    (h : statusById s i = some st)
    (hfix : ∀ x, x.status = st → (f x).status = st) :
    statusById (s.map f) i = some st := by
  cases hj : findById s i with
  | none => rw [statusById, hj] at h; simp at h
  | some j =>
    rw [statusById, hj] at h
    simp at h
    rw [statusById, findById_map f hid s i, hj]
    simp [hfix j h]

/-- A first-match update guarded by a `running`-implying predicate
preserves a lookup reading a non-`running` status. -/
theorem statusById_updateFirstP_pres (p : Job → Bool) (f : Job → Job)
    (hid : ∀ x, (f x).id = x.id)
    (hp : ∀ x, p x = true → x.status = "running")
    (s : JobState) (i : Nat) (st : String)
    (h : statusById s i = some st) (hterm : st ≠ "running") :
    statusById (updateFirstP p f s) i = some st := by
  induction s with
  | nil => exact h
  | cons a t ih =>
    rw [updateFirstP]
    by_cases hpa : p a = true
    · rw [if_pos hpa]
      by_cases hai : (a.id == i) = true
      · simp only [statusById, findById, List.find?_cons, hai,
          Option.map_some'] at h
        have hst : a.status = st := by simpa using h
        rw [← hst, hp a hpa] at hterm
        exact absurd rfl hterm
      · have hai' : (a.id == i) = false := by simpa using hai
        have hfi : ((f a).id == i) = false := by rw [hid a]; exact hai'
        simp only [statusById, findById, List.find?_cons, hfi]
        simp only [statusById, findById, List.find?_cons, hai'] at h
        exact h
    · rw [if_neg hpa]
      by_cases hai : (a.id == i) = true
      · simp only [statusById, findById, List.find?_cons, hai]
        simp only [statusById, findById, List.find?_cons, hai] at h
        exact h
      · have hai' : (a.id == i) = false := by simpa using hai
        simp only [statusById, findById, List.find?_cons, hai']
        simp only [statusById, findById, List.find?_cons, hai'] at h
        exact ih h

/-- `create_and_start_job` leaves the store unchanged or appends one new
row. -/
theorem create_state_shape (s : JobState) (clock : Clock) (cwd : String)
    (freshId : Nat) (sshRun : Option String) (uid : Nat)
    (path ty rname : String) (samples : List String) :
    (create_and_start_job s clock cwd freshId sshRun uid path ty rname
        samples).1 = s
    ∨ ∃ x, (create_and_start_job s clock cwd freshId sshRun uid path ty
        rname samples).1 = s ++ [x] := by
  rw [create_and_start_job]
  split
  · exact Or.inl rfl
  · split
    · exact Or.inl rfl
    · split
      · exact Or.inl rfl
      · cases sshRun with
        | none => exact Or.inr ⟨_, rfl⟩
        | some err => exact Or.inr ⟨_, rfl⟩

/-- `cancel_job` leaves the store unchanged, or fails the `running` row it
found by id. -/
theorem cancel_state_shape (s : JobState) (now : DateTime)
    (k : Option String) (jid uid : Nat) :
    (cancel_job s now k jid uid).1 = s
    ∨ ((cancel_job s now k jid uid).1
        = updateFirstById jid (fun x =>
            { x with status := "failed", updated_at := some now }) s
      ∧ ∃ j, findById s jid = some j ∧ j.status = "running") := by
  rw [cancel_job.eq_def]
  cases hf : findById s jid with
  | none => exact Or.inl rfl
  | some j =>
    dsimp only
    by_cases h1 : (j.user_id != uid) = true
    · rw [if_pos h1]
      exact Or.inl rfl
    · rw [if_neg h1]
      by_cases h2 : (j.status != "running") = true
      · rw [if_pos h2]
        exact Or.inl rfl
      · rw [if_neg h2]
        have hrun : j.status = "running" := by simpa using h2
        cases k with
        | none => exact Or.inr ⟨rfl, j, rfl, hrun⟩
        | some e => exact Or.inl rfl

/-- `get_job_progress` leaves the store unchanged, or transitions the
`running` row it found by id. -/
theorem progress_state_shape (s : JobState) (now : DateTime) (log : String)
    (jid uid : Nat) :
    (get_job_progress s now log jid uid).1 = s
    ∨ (∃ f : Job → Job, (∀ x, (f x).id = x.id)
        ∧ (get_job_progress s now log jid uid).1 = updateFirstById jid f s
        ∧ ∃ j, findById s jid = some j ∧ j.status = "running") := by
  rw [get_job_progress.eq_def]
  cases hf : findById s jid with
  | none => exact Or.inl rfl
  | some j =>
    dsimp only
    by_cases h1 : (j.user_id != uid) = true
    · rw [if_pos h1]
      exact Or.inl rfl
    · rw [if_neg h1]
      cases hip : inputPathOf j with
      | none => exact Or.inl rfl
      | some ip =>
        dsimp only
        by_cases h2 : (j.status == "running") = true
        · rw [if_pos h2]
          have hrun : j.status = "running" := by simpa using h2
          by_cases h3 : (log != "") = true
          · rw [if_pos h3]
            by_cases h4 : finishedMarker log = true
            · rw [if_pos h4]
              refine Or.inr ⟨_, ?_, rfl, j, rfl, hrun⟩
              intro x
              rfl
            · rw [if_neg h4]
              by_cases h5 : failedMarker log = true
              · rw [if_pos h5]
                refine Or.inr ⟨_, ?_, rfl, j, rfl, hrun⟩
                intro x
                rfl
              · rw [if_neg h5]
                exact Or.inl rfl
          · rw [if_neg h3]
            exact Or.inl rfl
        · rw [if_neg h2]
          exact Or.inl rfl

/-- `get_running_job` leaves the store unchanged or performs a first-match
update guarded by the user's-`running`-job predicate. -/
theorem getRunning_state_shape (s : JobState) (now : DateTime) (uid : Nat) :
    (get_running_job s now uid).1 = s
    ∨ ∃ f : Job → Job, (∀ x, (f x).id = x.id)
        ∧ (get_running_job s now uid).1
          = updateFirstP
              (fun j => j.user_id == uid && j.status == "running") f s := by
  rw [get_running_job.eq_def]
  dsimp only
  cases hf : s.find? (fun j => j.user_id == uid && j.status == "running") with
  | none => exact Or.inl rfl
  | some j =>
    dsimp only
    by_cases h1 : dtLtB j.created_at (subMinutes now 60) = true
    · rw [if_pos h1]
      refine Or.inr ⟨_, ?_, rfl⟩
      intro x
      rfl
    · rw [if_neg h1]
      by_cases h2 : ((j.job_code.getD "") == "") = true
      · rw [if_pos h2]
        refine Or.inr ⟨_, ?_, rfl⟩
        intro x
        rfl
      · rw [if_neg h2]
        exact Or.inl rfl

/-- No single operation changes the status of a job read in a terminal
state. -/
theorem applyOp_terminal (s : JobState) (op : Op) (i : Nat) (st : String)
    (h : statusById s i = some st) (hterm : terminalStatus st) :
    statusById (applyOp s op) i = some st := by
  have hne : st ≠ "running" := by
    rcases hterm with h1 | h1 <;> rw [h1] <;> decide
  cases op with
  | create clock cwd freshId sshRun uid path ty rname samples =>
    simp only [applyOp]
    rcases create_state_shape s clock cwd freshId sshRun uid path ty rname
      samples with he | ⟨x, he⟩
    · rw [he]; exact h
    · rw [he]
      cases hj : findById s i with
      | none => rw [statusById, hj] at h; simp at h
      | some j =>
        rw [statusById, hj] at h
        rw [statusById]
        rw [findById] at hj ⊢
        rw [find?_append_some hj [x]]
        exact h
  | cancel now k jid uid =>
    simp only [applyOp]
    rcases cancel_state_shape s now k jid uid with he | ⟨he, hrun⟩
    · rw [he]; exact h
    · rw [he]
      exact statusById_updateFirstById_of_running s jid i st _
        (fun x => rfl) hrun h hne
  | progress now log jid uid =>
    simp only [applyOp]
    rcases progress_state_shape s now log jid uid with he | ⟨f, hid, he, hrun⟩
    · rw [he]; exact h
    · rw [he]
      exact statusById_updateFirstById_of_running s jid i st f hid hrun
        h hne
  | cleanup now =>
    simp only [applyOp, cleanup_stuck_jobs]
    refine statusById_map_pres _ ?_ s i st h ?_
    · intro x
      by_cases hx : (x.status == "running" && dtLtB x.created_at
          (subMinutes now 720)) = true
      · rw [if_pos hx]
      · rw [if_neg hx]
    · intro x hx
      have hb : (x.status == "running") = false := by
        rw [hx]
        exact beq_eq_false_iff_ne.mpr hne
      rw [hb]
      simp [hx]
  | getRunning now uid =>
    simp only [applyOp]
    rcases getRunning_state_shape s now uid with he | ⟨f, hid, he⟩
    · rw [he]; exact h
    · rw [he]
      refine statusById_updateFirstP_pres _ f hid ?_ s i st h hne
      intro x hx
      have := (Bool.and_eq_true _ _).mp hx
      simpa using this.2
  | forceReset now uid =>
    simp only [applyOp, force_reset_user_jobs]
    refine statusById_map_pres _ ?_ s i st h ?_
    · intro x
      by_cases hx : (x.user_id == uid && x.status == "running") = true
      · rw [if_pos hx]
      · rw [if_neg hx]
    · intro x hx
      have hb : (x.status == "running") = false := by
        rw [hx]
        exact beq_eq_false_iff_ne.mpr hne
      rw [hb]
      simp [hx]
  | getLog raw jid uid => exact h

/-- C9: the Job Lifecycle Manager never moves a job out of a terminal
state.  (1) Along every sequence of operations — create, cancel, poll,
stuck-job sweep, read-path sweep, force-reset, log fetch, with arbitrary
clocks, gateway outcomes and logs — a job once read as `finished` or
`failed` keeps that status.  (2) Cancel refuses a terminal job of the
caller with `Job läuft nicht` and changes nothing.  (3) Poll on a terminal
job returns the stored status unchanged for *every* possible log value
(so no fetched log can influence it) and leaves the store untouched. -/
theorem spec_C9_terminal_states_absorbing :
    (∀ (s : JobState) (ops : List Op) (i : Nat) (st : String),
      statusById s i = some st → terminalStatus st →
      statusById (applyOps s ops) i = some st)
    ∧ (∀ (s : JobState) (now : DateTime) (k : Option String)
        (jid uid : Nat) (j : Job),
      findById s jid = some j → j.user_id = uid → terminalStatus j.status →
      cancel_job s now k jid uid = (s, (false, some "Job läuft nicht")))
    ∧ (∀ (s : JobState) (now : DateTime) (jid uid : Nat) (j : Job)
        (ip : String),
      findById s jid = some j → j.user_id = uid →
      inputPathOf j = some ip → terminalStatus j.status →
      ∀ log : String,
        get_job_progress s now log jid uid
          = (s, { status := some j.status })) := by
  refine ⟨?_, ?_, ?_⟩
  · intro s ops
    induction ops generalizing s with
    | nil => intro i st h _; exact h
    | cons op ops ih =>
      intro i st h ht
      rw [applyOps]
      exact ih _ _ _ (applyOp_terminal s op i st h ht) ht
  · intro s now k jid uid j hfind hown hterm
    have hsne : j.status ≠ "running" := by
      rcases hterm with h1 | h1 <;> rw [h1] <;> decide
    simp [cancel_job, hfind, hown, hsne]
  · intro s now jid uid j ip hfind hown hip hterm log
    have hsne : j.status ≠ "running" := by
      rcases hterm with h1 | h1 <;> rw [h1] <;> decide
    have hb : (j.status == "running") = false := beq_eq_false_iff_ne.mpr hsne
    simp [get_job_progress, hfind, hown, hip, hb]

/-- Witness for C9 on a concrete `finished` job: a sweep, a force-reset, a
read-path sweep, a failure-marked poll and a cancel all leave it
`finished`; cancel answers `Job läuft nicht`; poll echoes `finished` on a
`COMPLETE`-marked log without touching the store. -/
theorem spec_C9_terminal_states_absorbing_witness :
    statusById (applyOps
      [{ runningJob7 with id := 4, status := "finished" }]
      [Op.cleanup ⟨⟨2024, 10, 10⟩, 600⟩,
       Op.forceReset ⟨⟨2024, 10, 10⟩, 600⟩ 7,
       Op.getRunning ⟨⟨2024, 10, 10⟩, 600⟩ 7,
       Op.progress ⟨⟨2024, 10, 10⟩, 600⟩ "ANALYSIS FAILED" 4 7,
       Op.cancel ⟨⟨2024, 10, 10⟩, 600⟩ none 4 7]) 4 = some "finished"
    ∧ cancel_job [{ runningJob7 with id := 4, status := "finished" }]
        ⟨⟨2024, 10, 10⟩, 600⟩ none 4 7
      = ([{ runningJob7 with id := 4, status := "finished" }],
         (false, some "Job läuft nicht"))
    ∧ get_job_progress [{ runningJob7 with id := 4, status := "finished" }]
        ⟨⟨2024, 10, 10⟩, 600⟩ "ANALYSIS COMPLETE" 4 7
      = ([{ runningJob7 with id := 4, status := "finished" }],
         { status := some "finished" }) := by
  refine ⟨?_, ?_, ?_⟩
  · exact spec_C9_terminal_states_absorbing.1
      [{ runningJob7 with id := 4, status := "finished" }] _ 4 "finished"
      (by rfl) (Or.inl rfl)
  · exact spec_C9_terminal_states_absorbing.2.1
      [{ runningJob7 with id := 4, status := "finished" }]
      ⟨⟨2024, 10, 10⟩, 600⟩ none 4 7
      { runningJob7 with id := 4, status := "finished" }
      (by rfl) (by rfl) (Or.inl rfl)
  · exact spec_C9_terminal_states_absorbing.2.2
      [{ runningJob7 with id := 4, status := "finished" }]
      ⟨⟨2024, 10, 10⟩, 600⟩ 4 7
      { runningJob7 with id := 4, status := "finished" }
      "/bacteria/run1" (by rfl) (by rfl) (by rfl) (Or.inl rfl)
      "ANALYSIS COMPLETE"

end NgsWeb
